import Mathlib

/-!
Verification development for the neo_roomcsv_converter repository
(src/main_step1.py, src/main_step3.py, src/main_step4_Claude.py).

The three Python scripts share one pipeline: decode a CSV export of
meeting-room reservations, walk the rows keeping a running section label
(the room name), classify each row as a section-header row or a data row,
and reshape data rows into an output schema.  They differ only in the
per-row emission (passthrough / display / storage) and in the datetime
normalisation used by the storage variant.

Strings are modelled as `List Char` (`Field`), rows as `List Field`.
Python library calls (`str.strip`, `str.replace`, `in`, `list.index`,
`datetime.strptime`, `strftime`, `fromisoformat`) are modelled by
executable Lean functions that follow the Python semantics on the value
shapes this program manipulates.
-/

namespace NeoRoomCsv

/-- A single CSV field, modelled as a list of characters. -/
abbrev Field := List Char

/-- One parsed CSV row: an ordered list of fields. -/
abbrev Row := List Field

/-- Characters stripped by Python `str.strip()` (ASCII whitespace plus the
common Unicode spaces that occur in this data: NBSP and ideographic space). -/
def pyIsSpace (c : Char) : Bool :=
  c == ' ' || c == '\t' || c == '\n' || c == '\r' || c == '\x0b' || c == '\x0c' ||
    c == ' ' || c == '　'

/-- Python `s.strip()`: drop leading and trailing whitespace. -/
def pyStrip (s : Field) : Field :=
  ((s.dropWhile pyIsSpace).reverse.dropWhile pyIsSpace).reverse

/-- Python `pat in s` (substring containment) for strings. -/
def containsSub (pat : Field) : Field → Bool
  | [] => pat.isEmpty
  | c :: cs => pat.isPrefixOf (c :: cs) || containsSub pat cs

/-- Python `s.replace(old, new)` where `old` is a single character:
every occurrence of `old` is replaced by `rep`. -/
def replaceChar (old : Char) (rep : Field) : Field → Field
  | [] => []
  | c :: cs => (if c == old then rep else [c]) ++ replaceChar old rep cs

/-- Structurally recursive worker for `replaceSub`; the fuel bounds the
number of steps and every step consumes at least one character, so fuel
equal to the input length never runs out. -/
def replaceSubAux (pat rep : Field) : Nat → Field → Field
  | _, [] => []
  | 0, s => s
  | fuel + 1, c :: cs =>
    if pat.isPrefixOf (c :: cs) then
      rep ++ replaceSubAux pat rep fuel (cs.drop (pat.length - 1))
    else c :: replaceSubAux pat rep fuel cs

/-- Python `s.replace(pat, rep)` for a non-empty pattern: scan left to
right, replacing non-overlapping occurrences and continuing after each
replacement. -/
def replaceSub (pat rep : Field) (s : Field) : Field :=
  replaceSubAux pat rep s.length s

/-- The substring 会議室 ("meeting room") used by the row classifier. -/
def kaigishitsu : Field := "会議室".data

/-- The ten circled-digit glyphs ①..⑩ handled by the substitution chain. -/
def circledDigits : Field := "①②③④⑤⑥⑦⑧⑨⑩".data

/-- The chained `.replace` calls of all three scripts
(main_step1.py lines 103-106, main_step3.py lines 162-165,
main_step4_Claude.py lines 176-178): ① ↦ "1", ..., ⑩ ↦ "10",
applied in source order ① first, ⑩ last. -/
def substCircled (s : Field) : Field :=
  replaceChar '⑩' "10".data
    (replaceChar '⑨' "9".data
      (replaceChar '⑧' "8".data
        (replaceChar '⑦' "7".data
          (replaceChar '⑥' "6".data
            (replaceChar '⑤' "5".data
              (replaceChar '④' "4".data
                (replaceChar '③' "3".data
                  (replaceChar '②' "2".data
                    (replaceChar '①' "1".data s)))))))))

/-- Facility substring 仙台合同庁舎 removed from the room name
(main_step3.py line 160, main_step4_Claude.py line 174). -/
def sendaiGodochosha : Field := "仙台合同庁舎".data

/-- Facility substring ／仙台地方振興事務所 removed from the room name
(main_step3.py line 160, main_step4_Claude.py line 174). -/
def sendaiJimusho : Field := "／仙台地方振興事務所".data

/-- `s.replace('仙台合同庁舎', '').replace('／仙台地方振興事務所', '')`. -/
def stripFacility (s : Field) : Field :=
  replaceSub sendaiJimusho [] (replaceSub sendaiGodochosha [] s)

/-- Section-header test shared by all three scripts
(main_step1.py line 91, main_step3.py line 119, main_step4_Claude.py line 147):
`len(row) > 1 and '会議室' in row[1] and (len(row) <= 2 or not row[2].strip())`. -/
def isHeaderRow (row : Row) : Bool :=
  decide (1 < row.length) && containsSub kaigishitsu (row.getD 1 []) &&
    (decide (row.length ≤ 2) || (pyStrip (row.getD 2 [])).isEmpty)

/-- Python truthiness of the `current_kaigishitsu` variable:
`None` and the empty string are falsy. -/
def optTruthy : Option Field → Bool
  | none => false
  | some s => !s.isEmpty

/-- Emission helper: apply the per-variant emit only when a section label
is available (the `current_kaigishitsu and ...` guard has already ensured
the label is a non-empty string when this fires). -/
def emitOpt (emit : Field → Row → List Row) : Option Field → Row → List Row
  | some lbl, row => emit lbl row
  | none, _ => []

/-- The stateful row walk shared by all three scripts (the `for i, row in
enumerate(lines[1:])` loop): skip empty rows, recognise section-header rows
(updating the running label to `row[1].strip()` and emitting nothing), and
hand data rows (`current_kaigishitsu and len(row) > 2 and row[2].strip()`)
to the per-variant emission `emit`.  Rows matching neither case are dropped. -/
def walk (emit : Field → Row → List Row) : Option Field → List Row → List Row
  | _, [] => []
  | cur, row :: rest =>
    if row = [] then walk emit cur rest
    else if isHeaderRow row then walk emit (some (pyStrip (row.getD 1 []))) rest
    else if optTruthy cur && decide (2 < row.length) && !(pyStrip (row.getD 2 [])).isEmpty then
      emitOpt emit cur row ++ walk emit cur rest
    else walk emit cur rest

/-- The running section label after processing a list of rows: it is
updated exactly when a section-header row is recognised. -/
def labelAfter : Option Field → List Row → Option Field
  | cur, [] => cur
  | cur, row :: rest =>
    if row = [] then labelAfter cur rest
    else if isHeaderRow row then labelAfter (some (pyStrip (row.getD 1 []))) rest
    else labelAfter cur rest

/-! ### Date and time normalisation (main_step4_Claude.py) -/

/-- Digit character for a value 0..9 (used by zero-padded rendering). -/
def digitChar : Nat → Char
  | 0 => '0' | 1 => '1' | 2 => '2' | 3 => '3' | 4 => '4'
  | 5 => '5' | 6 => '6' | 7 => '7' | 8 => '8' | _ => '9'

/-- Numeric value of a digit character. -/
def digitVal (c : Char) : Nat := c.toNat - 48

/-- Value of a digit string read in base 10. -/
def digitsToNat (s : Field) : Nat := s.foldl (fun a c => a * 10 + digitVal c) 0

/-- A numeric token as accepted by one `strptime` field: all digits,
length between `minLen` and `maxLen`, value between `lo` and `hi`. -/
def numToken (minLen maxLen lo hi : Nat) (t : Field) : Option Nat :=
  if t.all Char.isDigit ∧ minLen ≤ t.length ∧ t.length ≤ maxLen then
    if lo ≤ digitsToNat t ∧ digitsToNat t ≤ hi then some (digitsToNat t) else none
  else none

/-- Python `s.split(sep)` for a single-character separator. -/
def splitOnChar (sep : Char) : Field → List Field
  | [] => [[]]
  | c :: cs =>
    match splitOnChar sep cs with
    | [] => []
    | t :: ts => if c = sep then [] :: t :: ts else (c :: t) :: ts

/-- Gregorian leap-year rule, as used by Python's `datetime`. -/
def isLeap (y : Nat) : Bool := (y % 4 == 0 && y % 100 != 0) || y % 400 == 0

/-- Days in a month of the proleptic Gregorian calendar. -/
def daysInMonth (y m : Nat) : Nat :=
  if m == 2 then (if isLeap y then 29 else 28)
  else if m == 4 || m == 6 || m == 9 || m == 11 then 30 else 31

/-- Validity of a `datetime.date`: year 1..9999, month 1..12,
day 1..days-in-month. -/
def validDate (y m d : Nat) : Bool :=
  decide (1 ≤ y) && decide (y ≤ 9999) && decide (1 ≤ m) && decide (m ≤ 12) &&
    decide (1 ≤ d) && decide (d ≤ daysInMonth y m)

/-- `datetime.strptime(s, '%Y/%m/%d')` followed by the `datetime`
constructor's range checks: a 4-digit year (at least 1), a 1-2 digit month
1..12, a 1-2 digit day 1..31 not exceeding the month length, with the whole
string consumed. -/
def parseDate (s : Field) : Option (Nat × Nat × Nat) :=
  match splitOnChar '/' s with
  | [ty, tm, td] =>
    match numToken 4 4 1 9999 ty, numToken 1 2 1 12 tm, numToken 1 2 1 31 td with
    | some y, some m, some d => if d ≤ daysInMonth y m then some (y, m, d) else none
    | _, _, _ => none
  | _ => none

/-- `date + timedelta(days=1)` on the Gregorian calendar. -/
def nextDay (y m d : Nat) : Nat × Nat × Nat :=
  if d < daysInMonth y m then (y, m, d + 1)
  else if m < 12 then (y, m + 1, 1)
  else (y + 1, 1, 1)

/-- Zero-padded two-digit rendering (for values below 100). -/
def pad2 (n : Nat) : Field := [digitChar (n / 10 % 10), digitChar (n % 10)]

/-- Zero-padded four-digit rendering (for values below 10000). -/
def pad4 (n : Nat) : Field :=
  [digitChar (n / 1000 % 10), digitChar (n / 100 % 10), digitChar (n / 10 % 10),
    digitChar (n % 10)]

/-- `strftime('%Y/%m/%d')` on a valid date. -/
def renderDate (y m d : Nat) : Field :=
  pad4 y ++ '/' :: (pad2 m ++ '/' :: pad2 d)

/-- The literal substring `' 24:00'` tested by `fix_time_format`. -/
def space24 : Field := " 24:00".data

/-- main_step4_Claude.py lines 23-37, `fix_time_format`: if `' 24:00'`
occurs in the string, parse the part before the first space with
`strptime('%Y/%m/%d')`, add one day, and render as `'%Y/%m/%d 00:00'`;
any failure (unparsable date, or the `OverflowError` raised when adding a
day to 9999/12/31, Python's maximal date) is caught and the input is
returned unchanged. -/
def fix_time_format (s : Field) : Field :=
  if containsSub space24 s then
    match parseDate (s.takeWhile (fun c => c != ' ')) with
    | some (y, m, d) =>
      let nd := nextDay y m d
      if 9999 < nd.1 then s
      else renderDate nd.1 nd.2.1 nd.2.2 ++ " 00:00".data
    | none => s
  else s

/-- `datetime.strptime(s, '%Y/%m/%d %H:%M')`: a date as in `parseDate`,
one space, a 1-2 digit hour 0..23, a colon, a 1-2 digit minute 0..59. -/
def parseDateTime (s : Field) : Option (Nat × Nat × Nat × Nat × Nat) :=
  match splitOnChar ' ' s with
  | [ds, ts] =>
    match parseDate ds, splitOnChar ':' ts with
    | some (y, m, d), [th, tm] =>
      match numToken 1 2 0 23 th, numToken 1 2 0 59 tm with
      | some hh, some mi => some (y, m, d, hh, mi)
      | _, _ => none
    | _, _ => none
  | _ => none

/-- `dt.strftime('%Y-%m-%dT%H:%M:00+09:00')`. -/
def renderISO (y m d hh mi : Nat) : Field :=
  pad4 y ++ "-".data ++ pad2 m ++ "-".data ++ pad2 d ++ "T".data ++ pad2 hh ++
    ":".data ++ pad2 mi ++ ":00+09:00".data

/-- main_step4_Claude.py lines 39-50, `format_for_supabase`: apply
`fix_time_format`, parse the result with `strptime('%Y/%m/%d %H:%M')` and
re-render as fixed-offset ISO-8601; on any parse failure return the
original input unchanged. -/
def format_for_supabase (s : Field) : Field :=
  match parseDateTime (fix_time_format s) with
  | some (y, m, d, hh, mi) => renderISO y m d hh mi
  | none => s

/-! ### The three converters -/

/-- Header-name constant 開始日 (start date). -/
def kaishiNichi : Field := "開始日".data

/-- Header-name constant 開始時刻 (start time). -/
def kaishiJikan : Field := "開始時刻".data

/-- Header-name constant 終了日 (end date). -/
def shuryoNichi : Field := "終了日".data

/-- Header-name constant 終了時刻 (end time). -/
def shuryoJikan : Field := "終了時刻".data

/-- Header-name constant 利用目的詳細 (purpose detail). -/
def riyoMokutekiShosai : Field := "利用目的詳細".data

/-- Header-name constant 会議室名 (meeting-room name). -/
def kaigishitsuMei : Field := "会議室名".data

/-- The fixed literal × written into the purpose-detail column. -/
def batsu : Field := "×".data

/-- Python `header.index(name)` as an option: index of the first field
equal to `name`. -/
def colIdx (h : Row) (name : Field) : Option Nat := h.findIdx? (· == name)

/-- Failure modes of a conversion run; any error means the run returns
before the output file is written. -/
inductive ConvError where
  | emptyInput
  | missingRequiredColumn
  | noDataRowsFound
deriving DecidableEq, Repr

/-- main_step1.py emission (lines 96-108): prepend the current room name,
then apply the circled-digit substitution to every cell. -/
def emitPassthrough (lbl : Field) (row : Row) : List Row :=
  [(lbl :: row).map substCircled]

/-- main_step1.py `convert_csv` after CSV parsing (lines 68-120): prepend
会議室名 to the header, walk the remaining rows with the passthrough
emission, and fail with `noDataRowsFound` when only the header remains. -/
def convert_csv_step1 (lines : List Row) : Except ConvError (List Row) :=
  match lines with
  | [] => .error .emptyInput
  | header :: rest =>
    let res := (kaigishitsuMei :: header) :: walk emitPassthrough none rest
    if res.length ≤ 1 then .error .noDataRowsFound else .ok res

/-- The fixed output header of the display variant (main_step3.py line 89). -/
def newHeaderDisplay : Row :=
  [kaigishitsuMei, "開始日時".data, "終了日時".data, riyoMokutekiShosai]

/-- main_step3.py emission (lines 125-172): compose start/end datetimes by
joining the four required columns with a space (skipping the row on an
index error), build `[label, start, end, purpose]`, strip the facility
substrings from the label, apply the circled-digit substitution to every
cell, then overwrite index 3 (利用目的詳細 in the new header) with ×. -/
def emitDisplay (k1 k2 k3 k4 : Nat) (popt : Option Nat) (lbl : Field) (row : Row) :
    List Row :=
  if k1 < row.length ∧ k2 < row.length ∧ k3 < row.length ∧ k4 < row.length then
    [(([stripFacility lbl,
        row.getD k1 [] ++ " ".data ++ row.getD k2 [],
        row.getD k3 [] ++ " ".data ++ row.getD k4 [],
        (match popt with
          | some p => if p < row.length then row.getD p [] else []
          | none => ([] : Field))].map substCircled).set 3 batsu)]
  else []

/-- main_step3.py `convert_csv` after CSV parsing (lines 68-185): emit the
fixed display header, require the 開始日/開始時刻/終了日/終了時刻 columns
(`missingRequiredColumn` on failure, before any row is processed or any
output written), walk the rows with the display emission, and fail with
`noDataRowsFound` when only the header remains. -/
def convert_csv_step3 (lines : List Row) : Except ConvError (List Row) :=
  match lines with
  | [] => .error .emptyInput
  | header :: rest =>
    match colIdx header kaishiNichi, colIdx header kaishiJikan,
        colIdx header shuryoNichi, colIdx header shuryoJikan with
    | some k1, some k2, some k3, some k4 =>
      let popt := colIdx header riyoMokutekiShosai
      let res := newHeaderDisplay :: walk (emitDisplay k1 k2 k3 k4 popt) none rest
      if res.length ≤ 1 then .error .noDataRowsFound else .ok res
    | _, _, _, _ => .error .missingRequiredColumn

/-- Output header column `room_name` of the storage variant. -/
def roomNameCol : Field := "room_name".data

/-- Output header column `start_datetime` of the storage variant. -/
def startDatetimeCol : Field := "start_datetime".data

/-- Output header column `end_datetime` of the storage variant. -/
def endDatetimeCol : Field := "end_datetime".data

/-- Output header column `purpose_detail` of the storage variant. -/
def purposeDetailCol : Field := "purpose_detail".data

/-- The fixed output header of the storage variant (main_step4_Claude.py
line 118). -/
def newHeaderStorage : Row :=
  [roomNameCol, startDatetimeCol, endDatetimeCol, purposeDetailCol]

/-- main_step4_Claude.py emission (lines 152-187): compose start/end
datetimes, convert both with `format_for_supabase`, clean the room name
(facility substrings removed, stripped, circled digits substituted — the
substitution is applied to the room name only), and emit
`[room, startIso, endIso, ×]`. -/
def emitStorage (k1 k2 k3 k4 : Nat) (lbl : Field) (row : Row) : List Row :=
  if k1 < row.length ∧ k2 < row.length ∧ k3 < row.length ∧ k4 < row.length then
    [[substCircled (pyStrip (stripFacility lbl)),
      format_for_supabase (row.getD k1 [] ++ " ".data ++ row.getD k2 []),
      format_for_supabase (row.getD k3 [] ++ " ".data ++ row.getD k4 []),
      batsu]]
  else []

/-- main_step4_Claude.py `convert_csv` after CSV parsing (lines 97-200):
emit the fixed storage header, require the four datetime columns
(`missingRequiredColumn` before any row is processed or output written),
walk the rows with the storage emission, and fail with `noDataRowsFound`
when only the header remains. -/
def convert_csv_step4 (lines : List Row) : Except ConvError (List Row) :=
  match lines with
  | [] => .error .emptyInput
  | header :: rest =>
    match colIdx header kaishiNichi, colIdx header kaishiJikan,
        colIdx header shuryoNichi, colIdx header shuryoJikan with
    | some k1, some k2, some k3, some k4 =>
      let res := newHeaderStorage :: walk (emitStorage k1 k2 k3 k4) none rest
      if res.length ≤ 1 then .error .noDataRowsFound else .ok res
    | _, _, _, _ => .error .missingRequiredColumn

/-! ### BOM handling and the output validator -/

/-- The byte-order-mark character U+FEFF. -/
def bomChar : Char := '﻿'

/-- main_step1.py lines 41-42 and main_step4_Claude.py lines 70-71 (the
same code appears in main_step3.py): if the decoded text starts with a BOM,
apply `lstrip('﻿')`, which removes every leading BOM character. -/
def stripBom : Field → Field
  | [] => []
  | c :: cs =>
    if c = bomChar then List.dropWhile (fun x => x == bomChar) (c :: cs) else c :: cs

/-- The fixed offset suffix `+09:00` stripped before validation. -/
def plus0900 : Field := "+09:00".data

/-- `value.replace('+09:00', '')`. -/
def strip09 (s : Field) : Field := replaceSub plus0900 [] s

/-- `datetime.fromisoformat` on a date component `YYYY-MM-DD`. -/
def parseIsoDate (s : Field) : Option (Nat × Nat × Nat) :=
  match splitOnChar '-' s with
  | [ty, tm, td] =>
    match numToken 4 4 1 9999 ty, numToken 2 2 1 12 tm, numToken 2 2 1 31 td with
    | some y, some m, some d => if d ≤ daysInMonth y m then some (y, m, d) else none
    | _, _, _ => none
  | _ => none

/-- `datetime.fromisoformat` on a time component `HH:MM` or `HH:MM:SS`. -/
def parseIsoTime (s : Field) : Option (Nat × Nat × Nat) :=
  match splitOnChar ':' s with
  | [th, tm] =>
    match numToken 2 2 0 23 th, numToken 2 2 0 59 tm with
    | some hh, some mi => some (hh, mi, 0)
    | _, _ => none
  | [th, tm, ts] =>
    match numToken 2 2 0 23 th, numToken 2 2 0 59 tm, numToken 2 2 0 59 ts with
    | some hh, some mi, some sec => some (hh, mi, sec)
    | _, _, _ => none
  | _ => none

/-- `datetime.fromisoformat` on the value shapes this converter produces:
a date `YYYY-MM-DD`, optionally followed by a one-character separator and a
time `HH:MM` or `HH:MM:SS`. -/
def parseIso (s : Field) : Option (Nat × Nat × Nat × Nat × Nat × Nat) :=
  if s.length = 10 then (parseIsoDate s).map (fun p => (p.1, p.2.1, p.2.2, 0, 0, 0))
  else if 12 ≤ s.length then
    match parseIsoDate (s.take 10), parseIsoTime (s.drop 11) with
    | some (y, m, d), some (hh, mi, sec) => some (y, m, d, hh, mi, sec)
    | _, _ => none
  else none

/-- Mixed-radix encoding of a timestamp; on in-range components it orders
timestamps exactly as `datetime` comparison does. -/
def tsEncode (t : Nat × Nat × Nat × Nat × Nat × Nat) : Nat :=
  ((((t.1 * 13 + t.2.1) * 32 + t.2.2.1) * 24 + t.2.2.2.1) * 60 + t.2.2.2.2.1) * 60 +
    t.2.2.2.2.2

/-- One validator finding: a value that failed to parse, or a row whose
start is not strictly before its end, with the 1-based data-row number. -/
inductive ValErr where
  | parseFailure (i : Nat)
  | orderViolation (i : Nat)
deriving DecidableEq, Repr

/-- Validator summary: every collected violation, the at-most-five shown
examples, and the count of the remaining (hidden) violations. -/
structure ValReport where
  errors : List ValErr
  displayed : List ValErr
  remaining : Nat
deriving DecidableEq, Repr

/-- main_step4_Claude.py lines 243-256, the per-row check: rows long
enough to hold both columns have both values parsed after the `+09:00`
substring is removed (a parse failure is one finding) and their order
checked (`start_dt >= end_dt` is one finding); shorter rows are skipped. -/
def rowError (si ei i : Nat) (row : Row) : List ValErr :=
  if max si ei < row.length then
    match parseIso (strip09 (row.getD si [])), parseIso (strip09 (row.getD ei [])) with
    | some a, some b =>
      if tsEncode b ≤ tsEncode a then [ValErr.orderViolation i] else []
    | _, _ => [ValErr.parseFailure i]
  else []

/-- All validator findings over the data rows, numbered from 1. -/
def collectErrors (si ei : Nat) (data : List Row) : List ValErr :=
  (List.enumFrom 1 data).flatMap (fun p => rowError si ei p.1 p.2)

/-- main_step4_Claude.py lines 229-267, `validate_datetime_format` run on
the already-written output rows: when the header names both timestamp
columns, collect the per-row findings over the data rows (numbered from 1),
and report the first five plus the count of the rest; the rows themselves
are never modified.  When the header lacks either column (or the input is
empty) nothing is validated and no report is produced. -/
def validate_datetime_format (rows : List Row) : Option ValReport :=
  match rows with
  | [] => none
  | header :: data =>
    match colIdx header startDatetimeCol, colIdx header endDatetimeCol with
    | some si, some ei =>
      some ⟨collectErrors si ei data, (collectErrors si ei data).take 5,
        (collectErrors si ei data).length - ((collectErrors si ei data).take 5).length⟩
    | _, _ => none

/-! ### Supporting lemmas -/

/-- A character of `replaceChar old rep s` comes from `rep` or is an
unreplaced character of `s`. -/
theorem mem_replaceChar {c old : Char} {rep s : Field}
    (h : c ∈ replaceChar old rep s) : c ∈ rep ∨ (c ∈ s ∧ c ≠ old) := by
  induction s with
  | nil => simp [replaceChar] at h
  | cons a t ih =>
    simp only [replaceChar, List.mem_append] at h
    rcases h with h | h
    · by_cases hao : a = old
      · simp [hao] at h
        exact Or.inl h
      · simp [beq_iff_eq, hao] at h
        subst h
        exact Or.inr ⟨List.mem_cons_self _ _, hao⟩
    · rcases ih h with h1 | ⟨h1, h2⟩
      · exact Or.inl h1
      · exact Or.inr ⟨List.mem_cons_of_mem a h1, h2⟩

/-- A character absent from `rep` and either absent from `s` or equal to
the replaced character does not occur in `replaceChar old rep s`. -/
theorem not_mem_replaceChar {d old : Char} {rep s : Field}
    (h1 : d ∉ rep) (h2 : d ∉ s ∨ d = old) : d ∉ replaceChar old rep s := by
  intro hmem
  rcases mem_replaceChar hmem with h | ⟨hs, hne⟩
  · exact h1 h
  · rcases h2 with h2 | h2
    · exact h2 hs
    · exact hne h2

/-- No circled digit survives the substitution chain. -/
theorem circled_not_mem_substCircled {d : Char} (hd : d ∈ circledDigits) (s : Field) :
    d ∉ substCircled s := by
  rw [show circledDigits =
    ['①', '②', '③', '④', '⑤', '⑥', '⑦', '⑧', '⑨', '⑩'] from rfl] at hd
  simp only [List.mem_cons, List.not_mem_nil, or_false] at hd
  rcases hd with rfl | rfl | rfl | rfl | rfl | rfl | rfl | rfl | rfl | rfl <;>
  · unfold substCircled
    apply not_mem_replaceChar (by decide)
    repeat first
      | exact Or.inr rfl
      | refine Or.inl (not_mem_replaceChar (by decide) ?_)

/-- The walk distributes over append, threading the label through
`labelAfter`. -/
theorem walk_append (emit : Field → Row → List Row) (cur : Option Field)
    (l1 l2 : List Row) :
    walk emit cur (l1 ++ l2) = walk emit cur l1 ++ walk emit (labelAfter cur l1) l2 := by
  induction l1 generalizing cur with
  | nil => simp [walk, labelAfter]
  | cons row rest ih =>
    simp only [List.cons_append, List.append_eq, walk, labelAfter]
    split_ifs with h1 h2 h3
    · exact ih cur
    · exact ih _
    · rw [ih cur, List.append_assoc]
    · exact ih cur

/-- `labelAfter` distributes over append. -/
theorem labelAfter_append (cur : Option Field) (l1 l2 : List Row) :
    labelAfter cur (l1 ++ l2) = labelAfter (labelAfter cur l1) l2 := by
  induction l1 generalizing cur with
  | nil => simp [labelAfter]
  | cons row rest ih =>
    simp only [List.cons_append, labelAfter]
    split_ifs with h1 h2
    · exact ih cur
    · exact ih _
    · exact ih cur

/-- Rows containing no section-header row leave the label unchanged. -/
theorem labelAfter_of_no_header (cur : Option Field) (l : List Row)
    (h : ∀ r ∈ l, isHeaderRow r = false) : labelAfter cur l = cur := by
  induction l generalizing cur with
  | nil => rfl
  | cons row rest ih =>
    have hrow := h row (List.mem_cons_self row rest)
    have hrest : ∀ r ∈ rest, isHeaderRow r = false :=
      fun r hr => h r (List.mem_cons_of_mem row hr)
    simp only [labelAfter]
    split_ifs with h1 h2
    · exact ih cur hrest
    · rw [hrow] at h2
      exact absurd h2 (by simp)
    · exact ih cur hrest

/-- With no label set and no section-header row, the walk emits nothing. -/
theorem walk_none_of_no_header (emit : Field → Row → List Row) (l : List Row)
    (h : ∀ r ∈ l, isHeaderRow r = false) : walk emit none l = [] := by
  induction l with
  | nil => rfl
  | cons row rest ih =>
    have hrow := h row (List.mem_cons_self row rest)
    have hrest : ∀ r ∈ rest, isHeaderRow r = false :=
      fun r hr => h r (List.mem_cons_of_mem row hr)
    simp only [walk]
    split_ifs with h1 h2 h3
    · exact ih hrest
    · rw [hrow] at h2
      exact absurd h2 (by simp)
    · simp [optTruthy] at h3
    · exact ih hrest

/-- Every row of the walk's output was produced by the emission on some
label and some input row. -/
theorem mem_walk {emit : Field → Row → List Row} {cur : Option Field}
    {l : List Row} {r : Row} (h : r ∈ walk emit cur l) :
    ∃ lbl row, r ∈ emit lbl row := by
  induction l generalizing cur with
  | nil => simp [walk] at h
  | cons row rest ih =>
    simp only [walk] at h
    split_ifs at h with h1 h2 h3
    · exact ih h
    · exact ih h
    · rcases List.mem_append.mp h with h4 | h4
      · cases cur with
        | none => simp [emitOpt] at h4
        | some lbl => exact ⟨lbl, row, h4⟩
      · exact ih h4
    · exact ih h

/-- Shape of a successful passthrough run. -/
theorem convert_csv_step1_ok {lines res : List Row}
    (h : convert_csv_step1 lines = .ok res) :
    ∃ header rest, lines = header :: rest ∧
      res = (kaigishitsuMei :: header) :: walk emitPassthrough none rest := by
  cases lines with
  | nil => simp [convert_csv_step1] at h
  | cons header rest =>
    refine ⟨header, rest, rfl, ?_⟩
    simp only [convert_csv_step1] at h
    split_ifs at h with hl
    exact (Except.ok.inj h).symm

/-- Shape of a successful display run. -/
theorem convert_csv_step3_ok {lines res : List Row}
    (h : convert_csv_step3 lines = .ok res) :
    ∃ header rest k1 k2 k3 k4,
      lines = header :: rest ∧
      colIdx header kaishiNichi = some k1 ∧ colIdx header kaishiJikan = some k2 ∧
      colIdx header shuryoNichi = some k3 ∧ colIdx header shuryoJikan = some k4 ∧
      res = newHeaderDisplay ::
        walk (emitDisplay k1 k2 k3 k4 (colIdx header riyoMokutekiShosai)) none rest := by
  cases lines with
  | nil => simp [convert_csv_step3] at h
  | cons header rest =>
    simp only [convert_csv_step3] at h
    split at h
    · rename_i k1 k2 k3 k4 hc1 hc2 hc3 hc4
      split_ifs at h with hl
      exact ⟨header, rest, k1, k2, k3, k4, rfl, hc1, hc2, hc3, hc4,
        (Except.ok.inj h).symm⟩
    · exact Except.noConfusion h

/-- Shape of a successful storage run. -/
theorem convert_csv_step4_ok {lines res : List Row}
    (h : convert_csv_step4 lines = .ok res) :
    ∃ header rest k1 k2 k3 k4,
      lines = header :: rest ∧
      colIdx header kaishiNichi = some k1 ∧ colIdx header kaishiJikan = some k2 ∧
      colIdx header shuryoNichi = some k3 ∧ colIdx header shuryoJikan = some k4 ∧
      res = newHeaderStorage :: walk (emitStorage k1 k2 k3 k4) none rest := by
  cases lines with
  | nil => simp [convert_csv_step4] at h
  | cons header rest =>
    simp only [convert_csv_step4] at h
    split at h
    · rename_i k1 k2 k3 k4 hc1 hc2 hc3 hc4
      split_ifs at h with hl
      exact ⟨header, rest, k1, k2, k3, k4, rfl, hc1, hc2, hc3, hc4,
        (Except.ok.inj h).symm⟩
    · exact Except.noConfusion h

/-- Every row emitted by the display variant is a substituted 4-field row
whose index 3 has been overwritten with ×. -/
theorem mem_emitDisplay {k1 k2 k3 k4 : Nat} {popt : Option Nat} {lbl : Field}
    {row r : Row} (h : r ∈ emitDisplay k1 k2 k3 k4 popt lbl row) :
    ∃ a b c d : Field, r = ([a, b, c, d].map substCircled).set 3 batsu := by
  unfold emitDisplay at h
  by_cases hcond : k1 < row.length ∧ k2 < row.length ∧ k3 < row.length ∧ k4 < row.length
  · rw [if_pos hcond, List.mem_singleton] at h
    exact ⟨_, _, _, _, h⟩
  · rw [if_neg hcond] at h
    exact absurd h (List.not_mem_nil r)

/-- Every row emitted by the storage variant has the substituted clean
room name at index 0. -/
theorem mem_emitStorage {k1 k2 k3 k4 : Nat} {lbl : Field} {row r : Row}
    (h : r ∈ emitStorage k1 k2 k3 k4 lbl row) :
    r.getD 0 [] = substCircled (pyStrip (stripFacility lbl)) := by
  unfold emitStorage at h
  by_cases hcond : k1 < row.length ∧ k2 < row.length ∧ k3 < row.length ∧ k4 < row.length
  · rw [if_pos hcond, List.mem_singleton] at h
    rw [h, List.getD_cons_zero]
  · rw [if_neg hcond] at h
    exact absurd h (List.not_mem_nil r)

/-! ### Claims C1 and C2: the section-aware classifier -/

/-- C1: a row after the header row is treated as a SectionHeader iff it has
at least 2 fields, field 1 contains the substring 会議室, and either the row
has at most 2 fields or field 2 is empty or whitespace-only; in that case
the running section label becomes field 1 trimmed of surrounding whitespace
and the row contributes no output row.  `isHeaderRow` is a function of the
row alone, so the classification depends only on the row (plus the carried
label, which the non-header case leaves untouched). -/
theorem sectionHeader_classification
    (emit : Field → Row → List Row) (cur : Option Field) (row : Row) (rest : List Row) :
    (isHeaderRow row = true ↔
      (2 ≤ row.length ∧ containsSub kaigishitsu (row.getD 1 []) = true ∧
        (row.length ≤ 2 ∨ pyStrip (row.getD 2 []) = [])))
    ∧ (isHeaderRow row = true →
        walk emit cur (row :: rest) = walk emit (some (pyStrip (row.getD 1 []))) rest ∧
        labelAfter cur (row :: rest) = labelAfter (some (pyStrip (row.getD 1 []))) rest)
    ∧ (isHeaderRow row = false →
        labelAfter cur (row :: rest) = labelAfter cur rest) := by
  refine ⟨?_, ?_, ?_⟩
  · simp only [isHeaderRow, Bool.and_eq_true, Bool.or_eq_true, decide_eq_true_eq,
      List.isEmpty_iff]
    constructor
    · rintro ⟨⟨h1, h2⟩, h3⟩
      exact ⟨h1, h2, h3⟩
    · rintro ⟨h1, h2, h3⟩
      exact ⟨⟨h1, h2⟩, h3⟩
  · intro h
    have hne : row ≠ [] := by
      intro he
      rw [he] at h
      simp [isHeaderRow] at h
    constructor
    · simp [walk, hne, h]
    · simp [labelAfter, hne, h]
  · intro h
    by_cases hne : row = []
    · rw [hne]
      simp [labelAfter]
    · simp [labelAfter, hne, h]

/-- Witness for C1 at a concrete section-header row. -/
theorem sectionHeader_classification_witness :
    walk emitPassthrough none [["".data, "会議室".data, "".data]] =
      walk emitPassthrough (some (pyStrip "会議室".data)) [] :=
  ((sectionHeader_classification emitPassthrough none
    ["".data, "会議室".data, "".data] []).2.1 (by decide)).1

/-- C2: in every variant (the statement is quantified over the per-variant
emission, which is the only thing the variants change), the section label
changes only when a section-header row is recognised; rows before the first
section header produce no output; appending a row emits using exactly the
label left by the most recent preceding section header, and that label is
the trimmed field 1 of the last header row. -/
theorem sectionLabel_invariant (emit : Field → Row → List Row) :
    (∀ (cur : Option Field) (l : List Row),
        (∀ r ∈ l, isHeaderRow r = false) → labelAfter cur l = cur)
    ∧ (∀ (pre l : List Row),
        (∀ r ∈ pre, isHeaderRow r = false) →
        walk emit none (pre ++ l) = walk emit none l)
    ∧ (∀ (cur : Option Field) (l : List Row) (row : Row),
        walk emit cur (l ++ [row]) =
          walk emit cur l ++ walk emit (labelAfter cur l) [row])
    ∧ (∀ (cur : Option Field) (l1 : List Row) (hrow : Row) (l2 : List Row),
        isHeaderRow hrow = true → (∀ r ∈ l2, isHeaderRow r = false) →
        labelAfter cur (l1 ++ hrow :: l2) = some (pyStrip (hrow.getD 1 []))) := by
  refine ⟨labelAfter_of_no_header, ?_, ?_, ?_⟩
  · intro pre l hpre
    rw [walk_append, labelAfter_of_no_header _ _ hpre, walk_none_of_no_header emit pre hpre]
    rfl
  · intro cur l row
    exact walk_append emit cur l [row]
  · intro cur l1 hrow l2 hh hl2
    have hne : hrow ≠ [] := by
      intro he
      rw [he] at hh
      simp [isHeaderRow] at hh
    rw [labelAfter_append]
    simp [labelAfter, hne, hh, labelAfter_of_no_header _ _ hl2]

/-- Witness for C2: prepending a non-header row before the first section
header changes nothing. -/
theorem sectionLabel_invariant_witness :
    walk emitPassthrough none
        ([["x".data, "y".data, "z".data]] ++
          [["".data, "会議室".data, "".data], ["a".data, "b".data, "c".data]]) =
      walk emitPassthrough none
        [["".data, "会議室".data, "".data], ["a".data, "b".data, "c".data]] :=
  (sectionLabel_invariant emitPassthrough).2.1 _ _ (by decide)

/-! ### Claim C3: circled-digit substitution -/

/-- `true` iff the field contains no circled-digit glyph. -/
def noCircled (f : Field) : Bool := f.all (fun c => decide (c ∉ circledDigits))

/-- C3 is refuted on the storage variant: a circled digit in the 開始日
column of a data row survives into the emitted start_datetime field,
because main_step4_Claude.py applies the substitution only to the room
name and `format_for_supabase` returns the unparsable string unchanged. -/
theorem circledSubst_counterexample :
    convert_csv_step4
        [["id".data, "nm".data, kaishiNichi, kaishiJikan, shuryoNichi, shuryoJikan],
         ["".data, "会議室".data, "".data],
         ["a".data, "b".data, "①".data, "9:00".data, "2024/01/01".data, "9:30".data]] =
      .ok [newHeaderStorage,
        ["会議室".data, "① 9:00".data, "2024-01-01T09:30:00+09:00".data, batsu]] ∧
    noCircled "① 9:00".data = false :=
  ⟨by rfl, by rfl⟩

/-- C3 (amended): the passthrough and display variants apply the
circled-digit substitution to every field of every emitted data row, so no
circled digit survives there; the storage variant applies it only to the
room-name field (index 0), which is therefore the only field guaranteed
free of circled digits. -/
theorem circledSubst_amended :
    (∀ (lines res : List Row), convert_csv_step1 lines = .ok res →
        res.tail.all (fun r => r.all noCircled) = true)
    ∧ (∀ (lines res : List Row), convert_csv_step3 lines = .ok res →
        res.tail.all (fun r => r.all noCircled) = true)
    ∧ (∀ (lines res : List Row), convert_csv_step4 lines = .ok res →
        res.tail.all (fun r => noCircled (r.getD 0 [])) = true) := by
  refine ⟨?_, ?_, ?_⟩
  · intro lines res h
    obtain ⟨header, rest, hlines, hres⟩ := convert_csv_step1_ok h
    rw [hres, List.tail_cons, List.all_eq_true]
    intro r hr
    obtain ⟨lbl, row, hrow⟩ := mem_walk hr
    unfold emitPassthrough at hrow
    rw [List.mem_singleton] at hrow
    rw [hrow, List.all_eq_true]
    intro f hf
    obtain ⟨x, hx, hfx⟩ := List.mem_map.mp hf
    simp only [noCircled, List.all_eq_true, decide_eq_true_eq]
    intro c hc
    rw [← hfx] at hc
    exact fun hcirc => circled_not_mem_substCircled hcirc x hc
  · intro lines res h
    obtain ⟨header, rest, k1, k2, k3, k4, hlines, hc1, hc2, hc3, hc4, hres⟩ :=
      convert_csv_step3_ok h
    rw [hres, List.tail_cons, List.all_eq_true]
    intro r hr
    obtain ⟨lbl, row, hrow⟩ := mem_walk hr
    obtain ⟨a, b, c', d, hl4⟩ := mem_emitDisplay hrow
    rw [hl4, List.all_eq_true]
    intro f hf
    rcases List.mem_or_eq_of_mem_set hf with hf1 | hf1
    · obtain ⟨x, hx, hfx⟩ := List.mem_map.mp hf1
      simp only [noCircled, List.all_eq_true, decide_eq_true_eq]
      intro c hc
      rw [← hfx] at hc
      exact fun hcirc => circled_not_mem_substCircled hcirc x hc
    · rw [hf1]
      rfl
  · intro lines res h
    obtain ⟨header, rest, k1, k2, k3, k4, hlines, hc1, hc2, hc3, hc4, hres⟩ :=
      convert_csv_step4_ok h
    rw [hres, List.tail_cons, List.all_eq_true]
    intro r hr
    obtain ⟨lbl, row, hrow⟩ := mem_walk hr
    rw [mem_emitStorage hrow]
    simp only [noCircled, List.all_eq_true, decide_eq_true_eq]
    intro c hc
    exact fun hcirc => circled_not_mem_substCircled hcirc _ hc

/-- Concrete input for the C3 witness. -/
def w3Lines : List Row :=
  [["h".data], ["".data, "会議室".data], ["x".data, "y".data, "②".data]]

/-- Concrete passthrough output for the C3 witness. -/
def w3Res : List Row :=
  [[kaigishitsuMei, "h".data], ["会議室".data, "x".data, "y".data, "2".data]]

/-- Witness for the amended C3 at a concrete passthrough run whose input
contains a circled digit. -/
theorem circledSubst_amended_witness :
    convert_csv_step1 w3Lines = .ok w3Res ∧
    w3Res.tail.all (fun r => r.all noCircled) = true :=
  ⟨by rfl, circledSubst_amended.1 w3Lines w3Res (by rfl)⟩

/-! ### Claim C4: the display-variant data row -/

/-- C4 is refuted: the display variant does not emit the carried section
label verbatim — main_step3.py line 160 also strips the facility
substrings from it.  Here the carried label is 仙台合同庁舎大会議室 (its own
trim), yet the emitted first field is 大会議室. -/
theorem displayRow_counterexample :
    convert_csv_step3
        [["A".data, "B".data, "C".data, kaishiNichi, kaishiJikan, shuryoNichi, shuryoJikan],
         ["".data, "仙台合同庁舎大会議室".data, " ".data],
         ["a".data, "b".data, "c".data, "2024/04/01".data, "10:00".data,
          "2024/04/01".data, "11:00".data]] =
      .ok [newHeaderDisplay,
        ["大会議室".data, "2024/04/01 10:00".data, "2024/04/01 11:00".data, batsu]] ∧
    pyStrip "仙台合同庁舎大会議室".data = "仙台合同庁舎大会議室".data ∧
    ("大会議室".data : Field) ≠ "仙台合同庁舎大会議室".data :=
  ⟨by rfl, by rfl, by decide⟩

/-- C4 (amended): for every classified data row the display variant emits
`[substCircled (stripFacility label), substCircled (startDate ++ " " ++ startTime),
substCircled (endDate ++ " " ++ endTime), ×]` — the label is emitted after
facility-substring removal and circled-digit substitution, the composed
datetimes after circled-digit substitution, and the fourth value is the
fixed literal × regardless of the original purpose-detail content (the
purpose column position `popt` is arbitrary and unused). -/
theorem displayRow_amended (k1 k2 k3 k4 : Nat) (popt : Option Nat) (lbl : Field)
    (row : Row) (h1 : k1 < row.length) (h2 : k2 < row.length) (h3 : k3 < row.length)
    (h4 : k4 < row.length) :
    emitDisplay k1 k2 k3 k4 popt lbl row =
      [[substCircled (stripFacility lbl),
        substCircled (row.getD k1 [] ++ " ".data ++ row.getD k2 []),
        substCircled (row.getD k3 [] ++ " ".data ++ row.getD k4 []),
        batsu]] := by
  unfold emitDisplay
  rw [if_pos ⟨h1, h2, h3, h4⟩]
  simp only [List.map_cons, List.map_nil, List.set_cons_succ, List.set_cons_zero]

/-- Witness for the amended C4 at a concrete data row. -/
theorem displayRow_amended_witness :
    emitDisplay 3 4 5 6 (some 1) "仙台合同庁舎大会議室".data
        ["a".data, "b".data, "c".data, "2024/04/01".data, "10:00".data,
         "2024/04/01".data, "11:00".data] =
      [["大会議室".data, "2024/04/01 10:00".data, "2024/04/01 11:00".data, batsu]] :=
  (displayRow_amended 3 4 5 6 (some 1) "仙台合同庁舎大会議室".data
    ["a".data, "b".data, "c".data, "2024/04/01".data, "10:00".data,
     "2024/04/01".data, "11:00".data]
    (by decide) (by decide) (by decide) (by decide)).trans (by rfl)

/-! ### Claim C5: the 24:00 fold -/

/-- `digitChar` always yields an ASCII digit. -/
theorem digitChar_isDigit (n : Nat) : (digitChar n).isDigit = true := by
  unfold digitChar
  split <;> decide

/-- `digitVal` inverts `digitChar` below 10. -/
theorem digitVal_digitChar {n : Nat} (h : n < 10) : digitVal (digitChar n) = n := by
  interval_cases n <;> rfl

/-- Every character of `pad4` is a digit. -/
theorem pad4_isDigit {n : Nat} {c : Char} (hc : c ∈ pad4 n) : c.isDigit = true := by
  simp only [pad4, List.mem_cons, List.not_mem_nil, or_false] at hc
  rcases hc with rfl | rfl | rfl | rfl <;> exact digitChar_isDigit _

/-- Every character of `pad2` is a digit. -/
theorem pad2_isDigit {n : Nat} {c : Char} (hc : c ∈ pad2 n) : c.isDigit = true := by
  simp only [pad2, List.mem_cons, List.not_mem_nil, or_false] at hc
  rcases hc with rfl | rfl <;> exact digitChar_isDigit _

/-- A digit character is not a slash. -/
theorem isDigit_ne_slash {c : Char} (h : c.isDigit = true) : c ≠ '/' := by
  intro he
  rw [he] at h
  exact absurd h (by decide)

/-- A digit character is not a space. -/
theorem isDigit_ne_space {c : Char} (h : c.isDigit = true) : c ≠ ' ' := by
  intro he
  rw [he] at h
  exact absurd h (by decide)

/-- No slash occurs in `pad4`. -/
theorem pad4_ne_slash (n : Nat) : ∀ c ∈ pad4 n, c ≠ '/' :=
  fun _ hc => isDigit_ne_slash (pad4_isDigit hc)

/-- No slash occurs in `pad2`. -/
theorem pad2_ne_slash (n : Nat) : ∀ c ∈ pad2 n, c ≠ '/' :=
  fun _ hc => isDigit_ne_slash (pad2_isDigit hc)

/-- No space occurs in a rendered date. -/
theorem renderDate_ne_space (y m d : Nat) : ∀ c ∈ renderDate y m d, c ≠ ' ' := by
  intro c hc
  rcases List.mem_append.mp hc with hc1 | hc1
  · exact isDigit_ne_space (pad4_isDigit hc1)
  · rcases List.mem_cons.mp hc1 with rfl | hc2
    · decide
    · rcases List.mem_append.mp hc2 with hc3 | hc3
      · exact isDigit_ne_space (pad2_isDigit hc3)
      · rcases List.mem_cons.mp hc3 with rfl | hc4
        · decide
        · exact isDigit_ne_space (pad2_isDigit hc4)

/-- Reading back the zero-padded four-digit rendering. -/
theorem digitsToNat_pad4 {y : Nat} (h : y ≤ 9999) : digitsToNat (pad4 y) = y := by
  unfold digitsToNat pad4
  simp only [List.foldl_cons, List.foldl_nil]
  rw [digitVal_digitChar (Nat.mod_lt _ (by norm_num)),
    digitVal_digitChar (Nat.mod_lt _ (by norm_num)),
    digitVal_digitChar (Nat.mod_lt _ (by norm_num)),
    digitVal_digitChar (Nat.mod_lt _ (by norm_num))]
  omega

/-- Reading back the zero-padded two-digit rendering. -/
theorem digitsToNat_pad2 {n : Nat} (h : n ≤ 99) : digitsToNat (pad2 n) = n := by
  unfold digitsToNat pad2
  simp only [List.foldl_cons, List.foldl_nil]
  rw [digitVal_digitChar (Nat.mod_lt _ (by norm_num)),
    digitVal_digitChar (Nat.mod_lt _ (by norm_num))]
  omega

/-- `numToken` accepts a zero-padded four-digit token in range. -/
theorem numToken_pad4 {y lo hi : Nat} (h9 : y ≤ 9999) (hlo : lo ≤ y) (hhi : y ≤ hi) :
    numToken 4 4 lo hi (pad4 y) = some y := by
  have hall : (pad4 y).all Char.isDigit = true := by
    rw [List.all_eq_true]
    exact fun c hc => pad4_isDigit hc
  unfold numToken
  rw [digitsToNat_pad4 h9]
  rw [if_pos ⟨hall, Nat.le_refl 4, Nat.le_refl 4⟩, if_pos ⟨hlo, hhi⟩]

/-- `numToken` accepts a zero-padded two-digit token in range. -/
theorem numToken_pad2 {n lo hi : Nat} (h99 : n ≤ 99) (hlo : lo ≤ n) (hhi : n ≤ hi) :
    numToken 1 2 lo hi (pad2 n) = some n := by
  have hall : (pad2 n).all Char.isDigit = true := by
    rw [List.all_eq_true]
    exact fun c hc => pad2_isDigit hc
  unfold numToken
  rw [digitsToNat_pad2 h99]
  rw [if_pos ⟨hall, by simp [pad2], Nat.le_refl 2⟩, if_pos ⟨hlo, hhi⟩]

/-- `splitOnChar` never returns the empty list. -/
theorem splitOnChar_ne_nil (sep : Char) (s : Field) : splitOnChar sep s ≠ [] := by
  induction s with
  | nil => simp [splitOnChar]
  | cons c cs ih =>
    simp only [splitOnChar]
    cases h : splitOnChar sep cs with
    | nil => exact absurd h ih
    | cons t ts => split_ifs <;> simp

/-- Splitting a separator-free string yields the string itself. -/
theorem splitOnChar_no_sep (sep : Char) (s : Field) (h : ∀ c ∈ s, c ≠ sep) :
    splitOnChar sep s = [s] := by
  induction s with
  | nil => rfl
  | cons c cs ih =>
    have hc := h c (List.mem_cons_self _ _)
    have hcs : ∀ x ∈ cs, x ≠ sep := fun x hx => h x (List.mem_cons_of_mem _ hx)
    simp only [splitOnChar]
    rw [ih hcs]
    show (if c = sep then [] :: [cs] else (c :: cs) :: ([] : List Field)) = [c :: cs]
    rw [if_neg hc]

/-- Splitting past a separator-free prefix peels off that prefix. -/
theorem splitOnChar_append (sep : Char) (a rest : Field) (h : ∀ c ∈ a, c ≠ sep) :
    splitOnChar sep (a ++ sep :: rest) = a :: splitOnChar sep rest := by
  induction a with
  | nil =>
    rw [List.nil_append]
    cases hsp : splitOnChar sep rest with
    | nil => exact absurd hsp (splitOnChar_ne_nil sep rest)
    | cons t ts => simp [splitOnChar, hsp]
  | cons c cs ih =>
    have hc := h c (List.mem_cons_self _ _)
    have hcs : ∀ x ∈ cs, x ≠ sep := fun x hx => h x (List.mem_cons_of_mem _ hx)
    simp only [List.cons_append, List.append_eq, splitOnChar]
    rw [ih hcs]
    simp [hc]

/-- `takeWhile` up to the first space returns the space-free prefix. -/
theorem takeWhile_append_space (l r : Field) (hl : ∀ c ∈ l, c ≠ ' ') :
    (l ++ ' ' :: r).takeWhile (fun c => c != ' ') = l := by
  induction l with
  | nil => simp [List.takeWhile_cons]
  | cons c cs ih =>
    have hc := hl c (List.mem_cons_self _ _)
    have hcs : ∀ x ∈ cs, x ≠ ' ' := fun x hx => hl x (List.mem_cons_of_mem _ hx)
    simp only [List.cons_append, List.takeWhile_cons]
    rw [if_pos (by simp [hc]), ih hcs]

/-- A string that ends in `pat` contains `pat`. -/
theorem containsSub_append_self (pat l : Field) : containsSub pat (l ++ pat) = true := by
  induction l with
  | nil =>
    cases pat with
    | nil => rfl
    | cons p ps =>
      simp only [List.nil_append, containsSub]
      rw [Bool.or_eq_true]
      exact Or.inl (List.isPrefixOf_iff_prefix.mpr (List.prefix_refl _))
  | cons c cs ih =>
    simp only [List.cons_append, List.append_eq, containsSub]
    rw [ih, Bool.or_true]

/-- Reduction of `parseDate` once the split is known. -/
theorem parseDate_parts {s t1 t2 t3 : Field} (h : splitOnChar '/' s = [t1, t2, t3]) :
    parseDate s =
      (match numToken 4 4 1 9999 t1, numToken 1 2 1 12 t2, numToken 1 2 1 31 t3 with
        | some y, some m, some d =>
            if d ≤ daysInMonth y m then some (y, m, d) else none
        | _, _, _ => none) := by
  unfold parseDate
  rw [h]

/-- A month has at most 31 days. -/
theorem daysInMonth_le_31 (y m : Nat) : daysInMonth y m ≤ 31 := by
  unfold daysInMonth
  split_ifs <;> omega

/-- `strptime('%Y/%m/%d')` inverts `strftime('%Y/%m/%d')` on valid dates. -/
theorem parseDate_renderDate {y m d : Nat} (hv : validDate y m d = true) :
    parseDate (renderDate y m d) = some (y, m, d) := by
  simp only [validDate, Bool.and_eq_true, decide_eq_true_eq] at hv
  obtain ⟨⟨⟨⟨⟨h1, h2⟩, h3⟩, h4⟩, h5⟩, h6⟩ := hv
  have hsplit : splitOnChar '/' (renderDate y m d) = [pad4 y, pad2 m, pad2 d] := by
    unfold renderDate
    rw [splitOnChar_append '/' (pad4 y) _ (pad4_ne_slash y),
      splitOnChar_append '/' (pad2 m) _ (pad2_ne_slash m),
      splitOnChar_no_sep '/' (pad2 d) (pad2_ne_slash d)]
  have hd99 : d ≤ 99 := le_trans h6 (le_trans (daysInMonth_le_31 y m) (by omega))
  rw [parseDate_parts hsplit, numToken_pad4 h2 h1 h2,
    numToken_pad2 (by omega) h3 h4,
    numToken_pad2 hd99 h5 (le_trans h6 (daysInMonth_le_31 y m))]
  show (if d ≤ daysInMonth y m then some (y, m, d) else none) = some (y, m, d)
  rw [if_pos h6]

/-- Adding one day never leaves the year range except from 9999/12/31. -/
theorem nextDay_fst_le {y m d : Nat} (hv : validDate y m d = true)
    (hne : ¬(y = 9999 ∧ m = 12 ∧ d = 31)) : (nextDay y m d).1 ≤ 9999 := by
  simp only [validDate, Bool.and_eq_true, decide_eq_true_eq] at hv
  obtain ⟨⟨⟨⟨⟨h1, h2⟩, h3⟩, h4⟩, h5⟩, h6⟩ := hv
  unfold nextDay
  split_ifs with hd hm
  · exact h2
  · exact h2
  · have hm12 : m = 12 := by omega
    have hdim : daysInMonth y 12 = 31 := by simp [daysInMonth]
    have hd31 : d = 31 := by
      rw [hm12, hdim] at h6
      rw [hm12, hdim] at hd
      omega
    have hy : y ≠ 9999 := fun hy => hne ⟨hy, hm12, hd31⟩
    show y + 1 ≤ 9999
    omega

/-- C5 is refuted at the upper boundary of Python's calendar: the input
9999/12/31 24:00 is well-formed and contains ` 24:00`, yet `fix_time_format`
returns it unchanged, because `datetime(9999, 12, 31) + timedelta(days=1)`
raises `OverflowError`, which the function's blanket handler swallows. -/
theorem fix24_counterexample :
    fix_time_format "9999/12/31 24:00".data = "9999/12/31 24:00".data ∧
    containsSub space24 "9999/12/31 24:00".data = true ∧
    validDate 9999 12 31 = true :=
  ⟨by rfl, by rfl, by rfl⟩

/-- C5 (amended): for every valid date with a four-digit year rendered
platform-independently (1000 ≤ year) other than 9999/12/31, the 24:00 fold
replaces the time with 00:00 and advances the date by exactly one calendar
day (month and year rollover included); on 9999/12/31 the input comes back
unchanged (see the counterexample), and any input not containing ` 24:00`
comes back unchanged. -/
theorem fix24_amended :
    (∀ y m d : Nat, validDate y m d = true → 1000 ≤ y →
        ¬(y = 9999 ∧ m = 12 ∧ d = 31) →
        fix_time_format (renderDate y m d ++ space24) =
          renderDate (nextDay y m d).1 (nextDay y m d).2.1 (nextDay y m d).2.2 ++
            " 00:00".data)
    ∧ (∀ s : Field, containsSub space24 s = false → fix_time_format s = s) := by
  constructor
  · intro y m d hv hy1000 hne
    unfold fix_time_format
    rw [if_pos (containsSub_append_self space24 (renderDate y m d))]
    rw [show renderDate y m d ++ space24 = renderDate y m d ++ ' ' :: "24:00".data
      from rfl]
    rw [takeWhile_append_space _ _ (renderDate_ne_space y m d)]
    rw [parseDate_renderDate hv]
    show (if 9999 < (nextDay y m d).1 then renderDate y m d ++ ' ' :: "24:00".data
        else renderDate (nextDay y m d).1 (nextDay y m d).2.1 (nextDay y m d).2.2 ++
          " 00:00".data) =
      renderDate (nextDay y m d).1 (nextDay y m d).2.1 (nextDay y m d).2.2 ++
        " 00:00".data
    rw [if_neg (Nat.not_lt.mpr (nextDay_fst_le hv hne))]
  · intro s hs
    simp [fix_time_format, hs]

/-- Witness for the amended C5: 2024/03/31 24:00 folds to 2024/04/01 00:00
and 2024/12/31 24:00 rolls the year over to 2025/01/01 00:00. -/
theorem fix24_amended_witness :
    fix_time_format "2024/03/31 24:00".data = "2024/04/01 00:00".data ∧
    fix_time_format "2024/12/31 24:00".data = "2025/01/01 00:00".data ∧
    fix_time_format "2024/03/31 10:00".data = "2024/03/31 10:00".data :=
  ⟨(fix24_amended.1 2024 3 31 (by rfl) (by omega) (by omega)).trans (by rfl),
   (fix24_amended.1 2024 12 31 (by rfl) (by omega) (by omega)).trans (by rfl),
   fix24_amended.2 _ (by rfl)⟩

/-! ### Claim C6: the storage ISO rendering -/

/-- C6: if, after the 24:00 fold, the string parses under
`'%Y/%m/%d %H:%M'`, `format_for_supabase` re-renders it as
`YYYY-MM-DDTHH:MM:00+09:00`; on any parse failure it returns its original
input unchanged, so the failure is never fatal to the run. -/
theorem supabase_format :
    (∀ (s : Field) (y m d hh mi : Nat),
        parseDateTime (fix_time_format s) = some (y, m, d, hh, mi) →
        format_for_supabase s = renderISO y m d hh mi)
    ∧ (∀ s : Field,
        parseDateTime (fix_time_format s) = none → format_for_supabase s = s) := by
  constructor
  · intro s y m d hh mi h
    unfold format_for_supabase
    rw [h]
  · intro s h
    unfold format_for_supabase
    rw [h]

/-- Witness for C6: the claim's example 2024/03/31 09:00, rendered as
2024-03-31T09:00:00+09:00, plus an unparsable input returned unchanged. -/
theorem supabase_format_witness :
    format_for_supabase "2024/03/31 09:00".data = renderISO 2024 3 31 9 0 ∧
    renderISO 2024 3 31 9 0 = "2024-03-31T09:00:00+09:00".data ∧
    format_for_supabase "not a datetime".data = "not a datetime".data :=
  ⟨supabase_format.1 _ 2024 3 31 9 0 (by rfl), by rfl,
   supabase_format.2 _ (by rfl)⟩

/-! ### Claim C7: BOM removal -/

/-- Dropping leading BOM characters past a run of them. -/
theorem dropWhile_bom_replicate (k : Nat) (rest : Field)
    (h : rest.head? ≠ some bomChar) :
    List.dropWhile (fun x => x == bomChar) (List.replicate k bomChar ++ rest) = rest := by
  induction k with
  | zero =>
    rw [List.replicate, List.nil_append]
    cases rest with
    | nil => rfl
    | cons r rs =>
      have hr : ¬r = bomChar := fun he => h (by rw [List.head?_cons, he])
      rw [List.dropWhile_cons, if_neg (by simp [hr])]
  | succ k ih =>
    rw [List.replicate_succ, List.cons_append, List.dropWhile_cons, if_pos (by simp)]
    exact ih

/-- C7 is refuted: on text starting with two BOM characters the resolver
(`lstrip('﻿')` behind a `startswith` guard) removes both, not exactly
one as claimed — removing exactly one would leave `[bomChar, 'A']`. -/
theorem bomStrip_counterexample :
    stripBom [bomChar, bomChar, 'A'] = ['A'] ∧
    List.drop 1 [bomChar, bomChar, 'A'] = [bomChar, 'A'] ∧
    (['A'] : Field) ≠ [bomChar, 'A'] :=
  ⟨by rfl, by rfl, by decide⟩

/-- C7 (amended): the resolver removes every leading byte-order-mark
character (at least one when the text starts with one, so a single leading
BOM is removed exactly once), and text not beginning with a BOM is returned
without any removal. -/
theorem bomStrip_amended :
    (∀ (n : Nat) (rest : Field), 0 < n → rest.head? ≠ some bomChar →
        stripBom (List.replicate n bomChar ++ rest) = rest)
    ∧ (∀ s : Field, s.head? ≠ some bomChar → stripBom s = s) := by
  constructor
  · intro n rest hn hrest
    cases n with
    | zero => omega
    | succ k =>
      rw [List.replicate_succ, List.cons_append]
      show (if bomChar = bomChar then
          List.dropWhile (fun x => x == bomChar)
            (bomChar :: (List.replicate k bomChar ++ rest))
        else bomChar :: (List.replicate k bomChar ++ rest)) = rest
      rw [if_pos rfl,
        show bomChar :: (List.replicate k bomChar ++ rest) =
          List.replicate (k + 1) bomChar ++ rest
          from by rw [List.replicate_succ, List.cons_append]]
      exact dropWhile_bom_replicate (k + 1) rest hrest
  · intro s hs
    cases s with
    | nil => rfl
    | cons c cs =>
      have hc : ¬c = bomChar := fun he => hs (by rw [List.head?_cons, he])
      show (if c = bomChar then List.dropWhile (fun x => x == bomChar) (c :: cs)
        else c :: cs) = c :: cs
      rw [if_neg hc]

/-- Witness for the amended C7: two leading BOMs are both removed, one
leading BOM is removed exactly once, and BOM-free text is untouched. -/
theorem bomStrip_amended_witness :
    stripBom (List.replicate 2 bomChar ++ ['A']) = ['A'] ∧
    stripBom (List.replicate 1 bomChar ++ ['B']) = ['B'] ∧
    stripBom ['C'] = ['C'] :=
  ⟨bomStrip_amended.1 2 ['A'] (by omega) (by decide),
   bomStrip_amended.1 1 ['B'] (by omega) (by decide),
   bomStrip_amended.2 ['C'] (by decide)⟩

/-! ### Claim C8: fatal errors abort before any output -/

/-- C8: in the display and storage variants, (1) a header missing any of
開始日/開始時刻/終了日/終了時刻 makes the whole run fail with
`missingRequiredColumn` (the check sits before the row loop and before any
output write — an error result means no output file is written); (2) a
successful run always contains at least one data row besides the header,
so a result with only the header is never written; (3) with the required
columns present, an input consisting of the header row alone fails with
`noDataRowsFound`. -/
theorem abort_before_output :
    (∀ (header : Row) (rest : List Row),
        (colIdx header kaishiNichi = none ∨ colIdx header kaishiJikan = none ∨
          colIdx header shuryoNichi = none ∨ colIdx header shuryoJikan = none) →
        convert_csv_step3 (header :: rest) = .error .missingRequiredColumn ∧
        convert_csv_step4 (header :: rest) = .error .missingRequiredColumn)
    ∧ (∀ (lines res : List Row),
        (convert_csv_step3 lines = .ok res → 2 ≤ res.length) ∧
        (convert_csv_step4 lines = .ok res → 2 ≤ res.length))
    ∧ (∀ header : Row,
        colIdx header kaishiNichi ≠ none → colIdx header kaishiJikan ≠ none →
        colIdx header shuryoNichi ≠ none → colIdx header shuryoJikan ≠ none →
        convert_csv_step3 [header] = .error .noDataRowsFound ∧
        convert_csv_step4 [header] = .error .noDataRowsFound) := by
  refine ⟨?_, ?_, ?_⟩
  · intro header rest hmiss
    constructor
    · simp only [convert_csv_step3]
      split
      · rename_i k1 k2 k3 k4 hc1 hc2 hc3 hc4
        rcases hmiss with hm | hm | hm | hm
        · rw [hm] at hc1
          exact Option.noConfusion hc1
        · rw [hm] at hc2
          exact Option.noConfusion hc2
        · rw [hm] at hc3
          exact Option.noConfusion hc3
        · rw [hm] at hc4
          exact Option.noConfusion hc4
      · rfl
    · simp only [convert_csv_step4]
      split
      · rename_i k1 k2 k3 k4 hc1 hc2 hc3 hc4
        rcases hmiss with hm | hm | hm | hm
        · rw [hm] at hc1
          exact Option.noConfusion hc1
        · rw [hm] at hc2
          exact Option.noConfusion hc2
        · rw [hm] at hc3
          exact Option.noConfusion hc3
        · rw [hm] at hc4
          exact Option.noConfusion hc4
      · rfl
  · intro lines res
    constructor
    · intro h
      cases lines with
      | nil => simp [convert_csv_step3] at h
      | cons header rest =>
        simp only [convert_csv_step3] at h
        split at h
        · split_ifs at h with hl
          rw [← Except.ok.inj h]
          simp only [List.length_cons] at hl ⊢
          omega
        · exact Except.noConfusion h
    · intro h
      cases lines with
      | nil => simp [convert_csv_step4] at h
      | cons header rest =>
        simp only [convert_csv_step4] at h
        split at h
        · split_ifs at h with hl
          rw [← Except.ok.inj h]
          simp only [List.length_cons] at hl ⊢
          omega
        · exact Except.noConfusion h
  · intro header h1 h2 h3 h4
    obtain ⟨k1, hk1⟩ := Option.ne_none_iff_exists'.mp h1
    obtain ⟨k2, hk2⟩ := Option.ne_none_iff_exists'.mp h2
    obtain ⟨k3, hk3⟩ := Option.ne_none_iff_exists'.mp h3
    obtain ⟨k4, hk4⟩ := Option.ne_none_iff_exists'.mp h4
    constructor
    · simp only [convert_csv_step3, hk1, hk2, hk3, hk4]
      rw [if_pos (by simp [walk])]
    · simp only [convert_csv_step4, hk1, hk2, hk3, hk4]
      rw [if_pos (by simp [walk])]

/-- Witness for C8: a header with none of the required columns aborts both
variants with `missingRequiredColumn`; a lone header row with the required
columns yields `noDataRowsFound`. -/
theorem abort_before_output_witness :
    convert_csv_step3 [["A".data]] = .error .missingRequiredColumn ∧
    convert_csv_step4 [["A".data]] = .error .missingRequiredColumn ∧
    convert_csv_step3 [[kaishiNichi, kaishiJikan, shuryoNichi, shuryoJikan]] =
      .error .noDataRowsFound ∧
    convert_csv_step4 [[kaishiNichi, kaishiJikan, shuryoNichi, shuryoJikan]] =
      .error .noDataRowsFound :=
  ⟨(abort_before_output.1 ["A".data] [] (Or.inl (by rfl))).1,
   (abort_before_output.1 ["A".data] [] (Or.inl (by rfl))).2,
   (abort_before_output.2.2 _ (by decide) (by decide) (by decide) (by decide)).1,
   (abort_before_output.2.2 _ (by decide) (by decide) (by decide) (by decide)).2⟩

/-! ### Claim C9: the output validator -/

/-- C9: when the output header names both timestamp columns, the validator
produces a report (it never aborts and, being a pure reader of the rows,
never modifies them) that collects every per-row finding, displays at most
five of them, and accounts for the rest as a remainder count; a row long
enough to hold both columns yields no finding exactly when both values
(after the +09:00 suffix is stripped) parse and start < end. -/
theorem validator_report (header : Row) (data : List Row) (si ei : Nat)
    (h1 : colIdx header startDatetimeCol = some si)
    (h2 : colIdx header endDatetimeCol = some ei) :
    validate_datetime_format (header :: data) =
      some ⟨collectErrors si ei data, (collectErrors si ei data).take 5,
        (collectErrors si ei data).length -
          ((collectErrors si ei data).take 5).length⟩ ∧
    ((collectErrors si ei data).take 5).length ≤ 5 ∧
    ((collectErrors si ei data).take 5).length +
        ((collectErrors si ei data).length -
          ((collectErrors si ei data).take 5).length) =
      (collectErrors si ei data).length ∧
    (∀ (i : Nat) (row : Row), max si ei < row.length →
      (rowError si ei i row = [] ↔
        ∃ a b, parseIso (strip09 (row.getD si [])) = some a ∧
          parseIso (strip09 (row.getD ei [])) = some b ∧
          tsEncode a < tsEncode b)) := by
  refine ⟨?_, ?_, ?_, ?_⟩
  · simp only [validate_datetime_format, h1, h2]
  · rw [List.length_take]
    omega
  · rw [List.length_take]
    omega
  · intro i row hlen
    unfold rowError
    rw [if_pos hlen]
    cases hp1 : parseIso (strip09 (row.getD si [])) with
    | none =>
      constructor
      · intro hcontr
        exact absurd hcontr (by simp)
      · rintro ⟨a, b, ha, hb, hab⟩
        exact Option.noConfusion ha
    | some a =>
      cases hp2 : parseIso (strip09 (row.getD ei [])) with
      | none =>
        constructor
        · intro hcontr
          exact absurd hcontr (by simp)
        · rintro ⟨a', b', ha', hb', hab⟩
          exact Option.noConfusion hb'
      | some b =>
        show (if tsEncode b ≤ tsEncode a then [ValErr.orderViolation i] else []) = []
          ↔ _
        split_ifs with hab
        · constructor
          · intro hcontr
            exact absurd hcontr (by simp)
          · rintro ⟨a', b', ha', hb', hab'⟩
            cases Option.some.inj ha'
            cases Option.some.inj hb'
            omega
        · exact ⟨fun _ => ⟨a, b, rfl, rfl, by omega⟩, fun _ => rfl⟩

/-- Witness for C9 on a concrete already-written output: one inverted
interval and one unparsable value are both collected and displayed, with
no hidden remainder. -/
theorem validator_report_witness :
    validate_datetime_format
        [newHeaderStorage,
         ["r".data, "2024-01-01T10:00:00+09:00".data,
          "2024-01-01T09:00:00+09:00".data, batsu],
         ["r".data, "bad".data, "2024-01-01T09:00:00+09:00".data, batsu]] =
      some ⟨[ValErr.orderViolation 1, ValErr.parseFailure 2],
        [ValErr.orderViolation 1, ValErr.parseFailure 2], 0⟩ :=
  ((validator_report newHeaderStorage
      [["r".data, "2024-01-01T10:00:00+09:00".data,
        "2024-01-01T09:00:00+09:00".data, batsu],
       ["r".data, "bad".data, "2024-01-01T09:00:00+09:00".data, batsu]]
      1 2 (by rfl) (by rfl)).1).trans (by rfl)

/-! ### Claim C10: the purpose-detail column is optional in the display
variant -/

/-- C10: with the four required datetime columns present, the absence of
利用目的詳細 from the input header is not fatal (the only possible error
left is `noDataRowsFound`), every emitted data row still carries the fixed
literal × at index 3, and the emission does not depend on the looked-up
purpose-column position at all (the appended placeholder is unconditionally
overwritten), so the output is identical to a run where the column exists. -/
theorem purpose_column_optional (header : Row) (rest : List Row) (k1 k2 k3 k4 : Nat)
    (hk1 : colIdx header kaishiNichi = some k1)
    (hk2 : colIdx header kaishiJikan = some k2)
    (hk3 : colIdx header shuryoNichi = some k3)
    (hk4 : colIdx header shuryoJikan = some k4)
    (_hp : colIdx header riyoMokutekiShosai = none) :
    (∀ e, convert_csv_step3 (header :: rest) = .error e → e = .noDataRowsFound)
    ∧ (∀ res, convert_csv_step3 (header :: rest) = .ok res →
        ∀ r ∈ res.tail, r.getD 3 [] = batsu)
    ∧ (∀ (popt popt' : Option Nat) (lbl : Field) (row : Row),
        emitDisplay k1 k2 k3 k4 popt lbl row = emitDisplay k1 k2 k3 k4 popt' lbl row) := by
  refine ⟨?_, ?_, ?_⟩
  · intro e he
    simp only [convert_csv_step3, hk1, hk2, hk3, hk4] at he
    split_ifs at he with hl
    exact (Except.error.inj he).symm
  · intro res hres r hr
    simp only [convert_csv_step3, hk1, hk2, hk3, hk4] at hres
    split_ifs at hres with hl
    rw [← Except.ok.inj hres, List.tail_cons] at hr
    obtain ⟨lbl, row, hrow⟩ := mem_walk hr
    obtain ⟨a, b, c, d, hl4⟩ := mem_emitDisplay hrow
    rw [hl4]
    simp only [List.map_cons, List.map_nil, List.set_cons_succ, List.set_cons_zero,
      List.getD_cons_succ, List.getD_cons_zero]
  · intro popt popt' lbl row
    unfold emitDisplay
    by_cases hcond : k1 < row.length ∧ k2 < row.length ∧ k3 < row.length ∧
      k4 < row.length
    · rw [if_pos hcond, if_pos hcond]
      simp only [List.map_cons, List.map_nil, List.set_cons_succ, List.set_cons_zero]
    · rw [if_neg hcond, if_neg hcond]

/-- Concrete input for the C10 witness: the header lacks 利用目的詳細. -/
def w10Lines : List Row :=
  [["A".data, kaishiNichi, kaishiJikan, shuryoNichi, shuryoJikan],
   ["".data, "会議室".data, "".data],
   ["x".data, "2024/04/01".data, "10:00".data, "2024/04/01".data, "11:00".data]]

/-- Concrete display output for the C10 witness. -/
def w10Res : List Row :=
  [newHeaderDisplay,
   ["会議室".data, "2024/04/01 10:00".data, "2024/04/01 11:00".data, batsu]]

/-- Witness for C10: the purpose-less run succeeds and its data row carries
× at index 3. -/
theorem purpose_column_optional_witness :
    convert_csv_step3 w10Lines = .ok w10Res ∧
    (["会議室".data, "2024/04/01 10:00".data, "2024/04/01 11:00".data,
        batsu] : Row).getD 3 [] = batsu :=
  ⟨by rfl,
   (purpose_column_optional
      ["A".data, kaishiNichi, kaishiJikan, shuryoNichi, shuryoJikan]
      [["".data, "会議室".data, "".data],
       ["x".data, "2024/04/01".data, "10:00".data, "2024/04/01".data, "11:00".data]]
      1 2 3 4 (by rfl) (by rfl) (by rfl) (by rfl) (by rfl)).2.1
    w10Res (by rfl) _ (by decide)⟩

end NeoRoomCsv
